import Mathlib

/-!
# faustservice: the start-up supervisor of `faustweb` (src/main.cpp)

A shallow embedding of `main.cpp`: the global configuration variables, the
command-line resolver `process_cmdline`, the session accountant
`computeSessionSize`, the fault handler `_sigaction` with `catchsigs`, and the
start-up sequence `main`.

What the program obtains from its platform is modelled explicitly:

* a POSIX directory tree (`Node`) with path resolution, `mkdir`, and the
  `boost::filesystem` operations the program calls on it;
* `size_t` as a natural number reduced modulo `2 ^ 64`; the `int` values of
  the options are integers that the program only stores and compares;
* the outcome of `boost::program_options` parsing as an input
  (`Except Unit variables_map`): either the library threw, or it produced a map
  holding the options registered in `process_cmdline`;
* the exit status of `system("faust -v")` and the result of
  `FaustServer::start` as inputs.

Symbolic links and concurrent modification of the tree are not modelled.
-/

namespace FaustService

/-! ## Paths (`boost::filesystem::path` on POSIX) -/

/-- A path is held as its pathname string, as `fs::path` does. -/
abbrev path := String

/-- Whether `p` is absolute, `path::is_absolute`: the pathname starts with the
directory separator. -/
def is_absolute (p : path) : Bool :=
  match p.data with
  | c :: _ => c == '/'
  | [] => false

/-- The `operator/` of paths: the right operand is appended, after a separator
unless the left operand is empty or ends with one or the right operand starts
with one. An empty right operand leaves the left operand unchanged. -/
def path_append (p q : path) : path :=
  match q.data with
  | [] => p
  | c :: _ =>
    if c == '/' then String.mk (p.data ++ q.data)
    else
      match p.data.getLast? with
      | none => String.mk (p.data ++ q.data)
      | some l =>
        if l == '/' then String.mk (p.data ++ q.data)
        else String.mk (p.data ++ '/' :: q.data)

/-- The components of a pathname: the maximal runs of characters other than
the separator (empty components, as in `a//b` or `a/`, disappear). `cur` holds
the component being read, reversed. -/
def splitComponents : List Char → List Char → List String
  | cur, [] => if cur.isEmpty then [] else [String.mk cur.reverse]
  | cur, c :: cs =>
    if c == '/' then
      if cur.isEmpty then splitComponents [] cs
      else String.mk cur.reverse :: splitComponents [] cs
    else splitComponents (c :: cur) cs

/-- The components of the pathname `p`. -/
def components (p : path) : List String := splitComponents [] p.data

/-! ## The directory tree -/

/-- What a directory entry is:
* `file size`: a regular file of `size` bytes;
* `other`: an entry that is not a directory and whose size cannot be
  queried (FIFO, socket, device node);
* `dir access entries`: a directory with its entries in `readdir` order;
  `access = false` means the process may neither list, search nor modify it. -/
inductive Node where
  | file (size : Nat)
  | other
  | dir (access : Bool) (entries : List (String × Node))

/-- The error numbers the model distinguishes. -/
inductive Errno where
  | ENOENT
  | ENOTDIR
  | EACCES
  | EEXIST
  | EPERM
deriving DecidableEq, Repr

/-- The entry called `name` in a list of directory entries. -/
def lookupEntry (name : String) : List (String × Node) → Option Node
  | [] => none
  | (k, n) :: rest => if k = name then some n else lookupEntry name rest

/-- The node reached from `n` by descending through the names `q`. -/
def nodeAt : Node → List String → Option Node
  | n, [] => some n
  | n, c :: cs =>
    match n with
    | .dir _ es =>
      match lookupEntry c es with
      | some m => nodeAt m cs
      | none => none
    | _ => none

/-- Resolution of the components `cs` from the directory named by `cur`
(names from the root): every step requires the current location to be an
accessible directory; `.` stays, `..` goes to the parent (the root is its own
parent), a name descends. The result names a location whose parent is an
accessible directory; the location itself need not exist. -/
def canon (root : Node) : List String → List String → Except Errno (List String)
  | cur, [] => .ok cur
  | cur, c :: cs =>
    match nodeAt root cur with
    | some (.dir true _) =>
      if c = "." then canon root cur cs
      else if c = ".." then canon root cur.dropLast cs
      else canon root (cur ++ [c]) cs
    | some (.dir false _) => .error .EACCES
    | some _ => .error .ENOTDIR
    | none => .error .ENOENT

/-- The components to resolve from the root for pathname `p` in a process
whose working directory is `cwd`. The empty pathname names nothing. -/
def fullComponents (cwd : path) (p : path) : Except Errno (List String) :=
  if p.data.isEmpty then .error .ENOENT
  else if is_absolute p then .ok (components p)
  else .ok (components cwd ++ components p)

/-- The node a pathname resolves to, `stat(2)`. -/
def stat (root : Node) (cwd p : path) : Except Errno Node :=
  match fullComponents cwd p with
  | .error e => .error e
  | .ok cs =>
    match canon root [] cs with
    | .error e => .error e
    | .ok q =>
      match nodeAt root q with
      | some n => .ok n
      | none => .error .ENOENT

/-- The function `fs::is_directory(p)`: a path that does not resolve is not a directory;
any other failure of `stat` is thrown. -/
def is_directory (root : Node) (cwd p : path) : Except Errno Bool :=
  match stat root cwd p with
  | .ok (.dir _ _) => .ok true
  | .ok _ => .ok false
  | .error .ENOENT => .ok false
  | .error .ENOTDIR => .ok false
  | .error e => .error e

/-- Opening a directory for iteration (the constructor of
`fs::recursive_directory_iterator`): the entries of an accessible directory. -/
def opendir (root : Node) (cwd p : path) : Except Errno (List (String × Node)) :=
  match stat root cwd p with
  | .ok (.dir true es) => .ok es
  | .ok (.dir false _) => .error .EACCES
  | .ok _ => .error .ENOTDIR
  | .error e => .error e

/-! ## The session accountant -/

/-- The modulus of `size_t` arithmetic. -/
def SIZE_MODULUS : Nat := 2 ^ 64

mutual
/-- One round of the loop of `computeSessionSize` on the entry `n`, followed by
the iterator increment, which descends into `n` when it is a directory.
`size` is the accumulator; an exception of the library is an error. -/
def walkNode (size : Nat) : Node → Except Errno Nat
  | .file n => .ok ((size + n) % SIZE_MODULUS)
  | .other => .error .EPERM
  | .dir false _ => .error .EACCES
  | .dir true es => walkEntries size es
/-- The loop of `computeSessionSize` over the entries of a directory, each
followed by everything below it (pre-order). -/
def walkEntries (size : Nat) : List (String × Node) → Except Errno Nat
  | [] => .ok size
  | (_, n) :: rest =>
    match walkNode size n with
    | .error e => .error e
    | .ok s => walkEntries s rest
end

/-- The function `computeSessionSize` of main.cpp: the accumulated size, or 0
when the library raised a `filesystem_error`. -/
def computeSessionSize (root : Node) (cwd gSessionsDirectory : path) : Nat :=
  match opendir root cwd gSessionsDirectory with
  | .error _ => 0
  | .ok es =>
    match walkEntries 0 es with
    | .ok size => size
    | .error _ => 0

mutual
/-- Whether the walk meets no failing entry in `n` or below: no `other`
entry and no inaccessible directory. -/
def Node.traversable : Node → Bool
  | .file _ => true
  | .other => false
  | .dir false _ => false
  | .dir true es => traversableEntries es
/-- Whether the walk meets no failing entry among `es` or below. -/
def traversableEntries : List (String × Node) → Bool
  | [] => true
  | (_, n) :: rest => n.traversable && traversableEntries rest
end

mutual
/-- The sizes of the regular files in `n` and below, in walk order. -/
def Node.fileSizes : Node → List Nat
  | .file n => [n]
  | .other => []
  | .dir _ es => entriesFileSizes es
/-- The sizes of the regular files among `es` and below, in walk order. -/
def entriesFileSizes : List (String × Node) → List Nat
  | [] => []
  | (_, n) :: rest => n.fileSizes ++ entriesFileSizes rest
end

/-- The exact number of bytes held by the regular files among `es` and below. -/
def totalBytes (es : List (String × Node)) : Nat := (entriesFileSizes es).sum

/-! ## Creating directories -/

/-- The entries `es` with `f` applied to the entry called `c` (the one
`lookupEntry` finds). -/
def mapEntry (c : String) (f : Node → Node) : List (String × Node) → List (String × Node)
  | [] => []
  | (k, n) :: rest => if k = c then (k, f n) :: rest else (k, n) :: mapEntry c f rest

/-- The tree `n` in which the directory reached through the names `q` has
received a new, empty, accessible directory called `name`. -/
def insertDir (name : String) : Node → List String → Node
  | n, [] =>
    match n with
    | .dir a es => .dir a (es ++ [(name, .dir true [])])
    | .file k => .file k
    | .other => .other
  | n, c :: cs =>
    match n with
    | .dir a es => .dir a (mapEntry c (fun m => insertDir name m cs) es)
    | .file k => .file k
    | .other => .other

/-- The system call `mkdir(2)` on pathname `p`: the parent must resolve to an
accessible directory that has no entry of the final name. -/
def mkdir (root : Node) (cwd p : path) : Except Errno Node :=
  match fullComponents cwd p with
  | .error e => .error e
  | .ok cs =>
    match cs.getLast? with
    | none => .error .EEXIST
    | some name =>
      match canon root [] cs.dropLast with
      | .error e => .error e
      | .ok q =>
        match nodeAt root q with
        | some (.dir true es) =>
          if name = "." ∨ name = ".." then .error .EEXIST
          else
            match lookupEntry name es with
            | some _ => .error .EEXIST
            | none => .ok (insertDir name root q)
        | some (.dir false _) => .error .EACCES
        | some _ => .error .ENOTDIR
        | none => .error .ENOENT

/-- The function `fs::create_directory(p)`: `true` with the new tree when `mkdir`
succeeded; `false` with the tree untouched when `mkdir` failed but `p` is a
directory; otherwise the failure of `mkdir` is thrown. -/
def create_directory (root : Node) (cwd p : path) : Except Errno (Bool × Node) :=
  match mkdir root cwd p with
  | .ok root2 => .ok (true, root2)
  | .error e =>
    match is_directory root cwd p with
    | .ok true => .ok (false, root)
    | _ => .error e

/-! ## Global state and command line -/

/-- The global variables of main.cpp with their static initial values.
`gArguments` is the array `char* gArguments[256]`, a null pointer being `none`. -/
structure Globals where
  gPort : Int := 8888
  gMaxClients : Int := 2
  gAnyOrigin : Bool := true
  gMaxSessions : Int := 50
  gVerbosity : Int := 0
  gCurrentDirectory : path := ""
  gSessionsDirectory : path := ""
  gMakefilesDirectory : path := ""
  gLogfile : path := ""
  gRecoverCmd : String := ""
  gArguments : List (Option String) := List.replicate 256 none

/-- The content of a `po::variables_map` after a successful
`store`/`notify` against the option table of `process_cmdline`: one slot per
registered option, `none`/`false` when the option did not occur. -/
structure variables_map where
  sessions_dir : Option String := none
  help : Bool := false
  any_origin : Bool := false
  max_clients : Option Int := none
  port : Option Int := none
  max_sessions : Option Int := none
  verbose : Option Int := none
  recover_cmd : Option String := none

/-- The number of stored values under the option name, `vm.count(name)`: a
name that is not registered is never stored. -/
def variables_map.count (vm : variables_map) (name : String) : Nat :=
  if name = "sessions-dir" then (if vm.sessions_dir.isSome then 1 else 0)
  else if name = "help" then (if vm.help then 1 else 0)
  else if name = "any-origin" then (if vm.any_origin then 1 else 0)
  else if name = "max-clients" then (if vm.max_clients.isSome then 1 else 0)
  else if name = "port" then (if vm.port.isSome then 1 else 0)
  else if name = "max-sessions" then (if vm.max_sessions.isSome then 1 else 0)
  else if name = "verbose" then (if vm.verbose.isSome then 1 else 0)
  else if name = "recover-cmd" then (if vm.recover_cmd.isSome then 1 else 0)
  else 0

/-- The stored integer, `vm[name].as<int>()`; the program reads it only after
`count` has been checked (the value is 0 for a name without a stored integer). -/
def variables_map.as_int (vm : variables_map) (name : String) : Int :=
  if name = "max-clients" then vm.max_clients.getD 0
  else if name = "port" then vm.port.getD 0
  else if name = "max-sessions" then vm.max_sessions.getD 0
  else if name = "verbose" then vm.verbose.getD 0
  else 0

/-- The stored string, `vm[name].as<string>()`; the program reads it only
after `count` has been checked (the value is empty for a name without a stored
string). -/
def variables_map.as_string (vm : variables_map) (name : String) : String :=
  if name = "sessions-dir" then vm.sessions_dir.getD ""
  else if name = "recover-cmd" then vm.recover_cmd.getD ""
  else ""

/-- What the program does that an observer can see, in order. -/
inductive Event where
  | sigaction (signum : Nat)
  | cout_usage
  | cerr (msg : String)
  | signal_caught (signum : Nat)
  | recursive_directory_iterator (p : path)
  | banner (port : Int) (directory makefiles sessions : path) (size : Nat)
      (verbosity : Int) (recover : String)
  | system (cmd : String)
  | environment (env : List String)
  | is_directory (p : path)
  | create_directory (p : path)
  | FaustServer (port maxClients : Int) (sessions makefiles logfile : path)
      (maxSessions : Int)
  | start
deriving DecidableEq

/-- How `process_cmdline` ends when it does not return. -/
inductive Stop where
  | exited (status : Int)
  | thrown
deriving DecidableEq

/-- The function `process_cmdline` of main.cpp. `parsed` is what
`po::store(po::parse_command_line(argc, argv, desc), vm); po::notify(vm)`
produced: an exception, or the variables map. -/
def process_cmdline (parsed : Except Unit variables_map) (g : Globals) :
    List Event × Except Stop Globals :=
  match parsed with
  | .error _ => ([], .error .thrown)
  | .ok vm =>
    if vm.count "help" > 0 then ([.cout_usage], .error (.exited 0))
    else
      let g := if vm.count "port" > 0 then { g with gPort := vm.as_int "port" } else g
      let g := if vm.count "max-clients" > 0 then
        { g with gMaxClients := vm.as_int "max-clients" } else g
      let g := if vm.count "max-sessions" > 0 then
        { g with gMaxSessions := vm.as_int "max-sessions" } else g
      let g := if vm.count "logfile" > 0 then
        { g with gLogfile := vm.as_string "logfile" } else g
      let g := if vm.count "allow-any-origin" > 0 then { g with gAnyOrigin := true } else g
      let g := if vm.count "sessions-dir" > 0 then
        { g with gSessionsDirectory := vm.as_string "sessions-dir" } else g
      let g := if vm.count "verbose" > 0 then
        { g with gVerbosity := vm.as_int "verbose" } else g
      let g := if vm.count "recover-cmd" > 0 then
        { g with gRecoverCmd := vm.as_string "recover-cmd" } else g
      ([], .ok g)

/-! ## The fault handler -/

/-- Signal numbers (Linux). -/
def SIGILL : Nat := 4
/-- Signal number of the floating-point fault. -/
def SIGFPE : Nat := 8
/-- Signal number of the segmentation fault. -/
def SIGSEGV : Nat := 11

/-- How the fault handler ends: the `execv` call it issues, with the path and
the argument array it passes, or the `exit` call with its argument. The call
of `execv` replaces the process image by the named program; what happens when
the system refuses the call is not followed. -/
inductive HandlerOutcome where
  | execv (path : String) (argv : List (Option String))
  | exit (status : Int)

/-- The function `_sigaction` of main.cpp. -/
def _sigaction (g : Globals) (signal : Nat) : List Event × HandlerOutcome :=
  if g.gRecoverCmd.length > 0 then
    ([.cerr "\n\n", .signal_caught signal, .cerr "EXEC RECOVERING CMD: "],
      .execv g.gRecoverCmd g.gArguments)
  else
    ([.cerr "\n\n", .signal_caught signal, .cerr "NO RECOVERING CMD -> EXIT"],
      .exit (-1))

/-- The function `catchsigs` of main.cpp: the handler is registered for three
signals. -/
def catchsigs : List Event := [.sigaction SIGSEGV, .sigaction SIGILL, .sigaction SIGFPE]

/-- The argument vector a program started by `execv` receives from the array
`a`: the strings before the first null pointer. -/
def execArgs : List (Option String) → List String
  | [] => []
  | none :: _ => []
  | some s :: rest => s :: execArgs rest

/-- The status a parent observes for `exit(status)`: the low eight bits. -/
def exitStatus (status : Int) : Nat := (status % 256).toNat

/-! ## Start-up -/

/-- The assignment `a[i] = v` on an array of fixed length: `none` when `i` is
outside the array (undefined behaviour). -/
def storeAt (a : List (Option String)) (i : Nat) (v : Option String) :
    Option (List (Option String)) :=
  if i < a.length then some (a.set i v) else none

/-- The loop `for (i = ...; i < argc; i++) gArguments[i] = argv[i]` from
index `i` over the remaining arguments. -/
def copyLoop : List String → Nat → List (Option String) → Option (List (Option String))
  | [], _, a => some a
  | s :: rest, i, a =>
    match storeAt a i (some s) with
    | some a2 => copyLoop rest (i + 1) a2
    | none => none

/-- The copy of the arguments at the head of `main`, with the terminating
null pointer stored at index `argc`. -/
def copyArguments (a : List (Option String)) (argv : List String) :
    Option (List (Option String)) :=
  match copyLoop argv 0 a with
  | some a2 => storeAt a2 argv.length none
  | none => none

/-- The function `fs::absolute(p)` in a process whose current path is `cwd`. -/
def absolute (cwd p : path) : path :=
  if is_absolute p then p else path_append cwd p

/-- What `main` receives from outside the program. -/
structure Inputs where
  argv : List String
  env : List String
  parsed : Except Unit variables_map
  cwd : path
  root : Node
  faust_status : Int
  start_ok : Bool

/-- How the start-up ends: `exit(status)`; `terminate` for an exception that
nothing catches (the process is aborted); `undefined` for a write beyond
`gArguments`; `resident` when the server is started and `main` sleeps for
ever. -/
inductive Outcome where
  | exit (status : Int)
  | terminate
  | undefined
  | resident
deriving DecidableEq

/-- Whether the process has ended unsuccessfully. -/
def Outcome.failed : Outcome → Bool
  | .exit status => exitStatus status != 0
  | .terminate => true
  | .undefined => false
  | .resident => false

/-- One execution of `main`: the events in order, the global variables and the
directory tree at the end, and how it ended. -/
structure Run where
  events : List Event
  globals : Globals
  root : Node
  outcome : Outcome

/-- The function `printFaustVersion` of main.cpp; `err` is what
`system("faust -v")` returned. -/
def printFaustVersion (err : Int) : List Event :=
  [.system "faust -v"] ++ (if err ≠ 0 then [.cerr "ERROR: Faust not found"] else [])

/-- The block of `main` guarded by `gVerbosity >= 0`: the start-up report with
the value of `computeSessionSize`, `printFaustVersion`, and the environment
listing. -/
def report (i : Inputs) (g : Globals) : List Event :=
  if g.gVerbosity ≥ 0 then
    [.recursive_directory_iterator g.gSessionsDirectory,
      .banner g.gPort g.gCurrentDirectory g.gMakefilesDirectory g.gSessionsDirectory
        (computeSessionSize i.root i.cwd g.gSessionsDirectory) g.gVerbosity g.gRecoverCmd]
    ++ printFaustVersion i.faust_status
    ++ (if g.gVerbosity ≥ 2 then [.environment i.env] else [])
  else []

/-- The last part of `main`: the server is constructed and started. -/
def serve (i : Inputs) (g : Globals) (root : Node) (ev : List Event) : Run :=
  let ev := ev ++ [.FaustServer g.gPort g.gMaxClients g.gSessionsDirectory
    g.gMakefilesDirectory g.gLogfile g.gMaxSessions, .start]
  if i.start_ok then
    { events := ev
        ++ (if g.gVerbosity ≥ 2 then [.cerr "webserver started succesfully"] else [])
        ++ [.cerr "type ctrl-c to quit"],
      globals := g, root := root, outcome := .resident }
  else
    { events := ev ++ [.cerr "ERROR: unable to start webserver ! Check if port is available"],
      globals := g, root := root, outcome := .exit 1 }

/-- The step of `main` that creates the sessions directory when needed: the
call of `create_directory` with the message of the branch taken. The result
tells whether the directory was created, and gives the events and the tree. -/
def sessions_step (root : Node) (cwd : path) (g : Globals) :
    Except Errno (Bool × List Event × Node) :=
  match create_directory root cwd g.gSessionsDirectory with
  | .error e => .error e
  | .ok (true, root2) =>
    .ok (true, [.create_directory g.gSessionsDirectory]
      ++ (if g.gVerbosity ≥ 1 then [.cerr "Create \"sessions\" directory at path "] else []),
      root2)
  | .ok (false, root2) =>
    .ok (false, [.create_directory g.gSessionsDirectory]
      ++ (if g.gVerbosity ≥ 1 then [.cerr "Reuse \"sessions\" directory at path "] else []),
      root2)

/-- The directory part of `main`: the makefiles directory is checked, the
sessions directory is created when needed, then the server is run. An
exception of the library is caught nowhere and terminates the process. -/
def directories (i : Inputs) (g : Globals) (ev : List Event) : Run :=
  let ev := ev ++ [.is_directory g.gMakefilesDirectory]
  match is_directory i.root i.cwd g.gMakefilesDirectory with
  | .error _ => { events := ev, globals := g, root := i.root, outcome := .terminate }
  | .ok false =>
    { events := ev ++ [.cerr "ERROR: no makefiles directory available at path "],
      globals := g, root := i.root, outcome := .exit 1 }
  | .ok true =>
    let ev := ev
      ++ (if g.gVerbosity ≥ 2 then [.cerr "Makefiles directory available at path "] else [])
    match sessions_step i.root i.cwd g with
    | .error _ =>
      { events := ev ++ [.create_directory g.gSessionsDirectory], globals := g,
        root := i.root, outcome := .terminate }
    | .ok (_, sev, root2) => serve i g root2 (ev ++ sev)

/-- The function `main` of main.cpp. -/
def main (i : Inputs) : Run :=
  let g : Globals := {}
  let ev := catchsigs
  match copyArguments g.gArguments i.argv with
  | none => { events := ev, globals := g, root := i.root, outcome := .undefined }
  | some a =>
    let g := { g with gArguments := a }
    let g := { g with gCurrentDirectory := absolute i.cwd i.cwd }
    let g := { g with gMakefilesDirectory := path_append g.gCurrentDirectory "makefiles" }
    let g := { g with gSessionsDirectory := path_append g.gCurrentDirectory "sessions" }
    match process_cmdline i.parsed g with
    | (pev, .error .thrown) =>
      { events := ev ++ pev ++ [.cerr "Unknown parameter"], globals := g, root := i.root,
        outcome := .exit 1 }
    | (pev, .error (.exited status)) =>
      { events := ev ++ pev, globals := g, root := i.root, outcome := .exit status }
    | (pev, .ok g) => directories i g (ev ++ pev ++ report i g)

/-- The global variables when `main` calls `process_cmdline`, for an
invocation whose arguments fit into `gArguments`: the arguments followed by
null pointers, and the three default paths. -/
def entryGlobals (i : Inputs) : Globals :=
  { gArguments := i.argv.map some ++ List.replicate (256 - i.argv.length) none,
    gCurrentDirectory := absolute i.cwd i.cwd,
    gMakefilesDirectory := path_append (absolute i.cwd i.cwd) "makefiles",
    gSessionsDirectory := path_append (absolute i.cwd i.cwd) "sessions" }

/-- Whether the event is a directory check, a directory walk, a directory
creation, or the construction or start of the server. -/
def Event.touches : Event → Bool
  | .recursive_directory_iterator _ => true
  | .is_directory _ => true
  | .create_directory _ => true
  | .FaustServer _ _ _ _ _ _ => true
  | .start => true
  | _ => false

/-- Whether the event is the creation of a directory or the construction or
start of the server. -/
def Event.commits : Event → Bool
  | .create_directory _ => true
  | .FaustServer _ _ _ _ _ _ => true
  | .start => true
  | _ => false

/-! ## Example trees and invocations -/

/-- A served directory `/srv` with the layout of the program: `makefiles` and
`sessions`, the latter holding three files of 10, 20 and 30 bytes. -/
def exampleTree : Node :=
  .dir true [("srv", .dir true
    [("makefiles", .dir true []),
     ("sessions", .dir true [("a", .file 10), ("b", .file 20), ("c", .file 30)])])]

/-- The same files as in `exampleTree`, the 20-byte file moved two
directories down. -/
def nestedTree : Node :=
  .dir true [("srv", .dir true
    [("makefiles", .dir true []),
     ("sessions", .dir true
        [("a", .file 10),
         ("x", .dir true [("y", .dir true [("b", .file 20)])]),
         ("c", .file 30)])])]

/-- A sessions directory with three sparse files of `2 ^ 63 - 1` bytes, the
largest size a file can have. -/
def sparseTree : Node :=
  .dir true [("srv", .dir true
    [("sessions", .dir true
        [("a", .file (2 ^ 63 - 1)), ("b", .file (2 ^ 63 - 1)), ("c", .file (2 ^ 63 - 1))])])]

/-- A sessions directory in which a 10-byte file is followed by a FIFO. -/
def fifoTree : Node :=
  .dir true [("srv", .dir true
    [("sessions", .dir true [("a", .file 10), ("pipe", .other)])])]

/-- A served directory `/srv` without a `makefiles` directory. -/
def bareTree : Node := .dir true [("srv", .dir true [])]

/-- The invocation `faustweb --help` in `/srv`. -/
def helpInvocation : Inputs :=
  { argv := ["faustweb", "--help"], env := [], parsed := .ok { help := true },
    cwd := "/srv", root := exampleTree, faust_status := 0, start_ok := true }

/-- The invocation `faustweb --help --bogus` in `/srv`: the option parser
throws on the unknown option. -/
def helpBogusInvocation : Inputs :=
  { argv := ["faustweb", "--help", "--bogus"], env := [], parsed := .error (),
    cwd := "/srv", root := exampleTree, faust_status := 0, start_ok := true }

/-- The invocation `faustweb --sessions-dir cache` in `/srv`. -/
def relativeInvocation : Inputs :=
  { argv := ["faustweb", "--sessions-dir", "cache"], env := [],
    parsed := .ok { sessions_dir := some "cache" },
    cwd := "/srv", root := exampleTree, faust_status := 0, start_ok := true }

/-- The invocation `faustweb --port 8000 --recover-cmd /usr/bin/faustweb` in
`/srv`. -/
def recoverInvocation : Inputs :=
  { argv := ["faustweb", "--port", "8000", "--recover-cmd", "/usr/bin/faustweb"], env := [],
    parsed := .ok { port := some 8000, recover_cmd := some "/usr/bin/faustweb" },
    cwd := "/srv", root := exampleTree, faust_status := 0, start_ok := true }

/-- The invocation `faustweb -v 1` in a directory `/srv` without `makefiles`. -/
def bareInvocation : Inputs :=
  { argv := ["faustweb", "-v", "1"], env := [], parsed := .ok { verbose := some 1 },
    cwd := "/srv", root := bareTree, faust_status := 0, start_ok := true }

/-- The invocation `faustweb --bogus` in `/srv`, which the option parser
rejects. -/
def bogusInvocation : Inputs :=
  { argv := ["faustweb", "--bogus"], env := [], parsed := .error (),
    cwd := "/srv", root := exampleTree, faust_status := 0, start_ok := true }

/-! ## Lemmas on the walk -/

theorem SIZE_MODULUS_pos : 0 < SIZE_MODULUS := by decide

mutual
theorem walkNode_ok (n : Node) (s : Nat) (hs : s < SIZE_MODULUS)
    (h : n.traversable = true) :
    walkNode s n = .ok ((s + n.fileSizes.sum) % SIZE_MODULUS) := by
  match n with
  | .file k => simp [walkNode, Node.fileSizes]
  | .other => simp [Node.traversable] at h
  | .dir false _ => simp [Node.traversable] at h
  | .dir true es =>
    simp only [Node.traversable] at h
    simp only [walkNode, Node.fileSizes]
    exact walkEntries_ok es s hs h
theorem walkEntries_ok (es : List (String × Node)) (s : Nat) (hs : s < SIZE_MODULUS)
    (h : traversableEntries es = true) :
    walkEntries s es = .ok ((s + (entriesFileSizes es).sum) % SIZE_MODULUS) := by
  match es with
  | [] => simp [walkEntries, entriesFileSizes, Nat.mod_eq_of_lt hs]
  | (_, n) :: rest =>
    simp only [traversableEntries, Bool.and_eq_true] at h
    simp only [walkEntries, entriesFileSizes, List.sum_append]
    rw [walkNode_ok n s hs h.1]
    simp only
    rw [walkEntries_ok rest _ (Nat.mod_lt _ SIZE_MODULUS_pos) h.2]
    congr 1
    rw [Nat.add_mod, Nat.mod_mod, ← Nat.add_mod, Nat.add_assoc]
end

mutual
theorem walkNode_error (n : Node) (s : Nat) (h : n.traversable = false) :
    ∃ e, walkNode s n = .error e := by
  match n with
  | .file k => simp [Node.traversable] at h
  | .other => exact ⟨_, rfl⟩
  | .dir false _ => exact ⟨_, rfl⟩
  | .dir true es =>
    simp only [Node.traversable] at h
    simp only [walkNode]
    exact walkEntries_error es s h
theorem walkEntries_error (es : List (String × Node)) (s : Nat)
    (h : traversableEntries es = false) :
    ∃ e, walkEntries s es = .error e := by
  match es with
  | [] => simp [traversableEntries] at h
  | (_, n) :: rest =>
    simp only [traversableEntries, Bool.and_eq_false_iff] at h
    simp only [walkEntries]
    cases hn : n.traversable with
    | false =>
      obtain ⟨e, he⟩ := walkNode_error n s hn
      exact ⟨e, by rw [he]⟩
    | true =>
      cases hw : walkNode s n with
      | error e => exact ⟨e, rfl⟩
      | ok s2 =>
        have hr : traversableEntries rest = false := by
          rcases h with h | h
          · rw [hn] at h; cases h
          · exact h
        exact walkEntries_error rest s2 hr
end

/-- On a directory that opens and is traversable the result is the total
modulo `SIZE_MODULUS`. -/
theorem computeSessionSize_of_traversable (root : Node) (cwd p : path)
    (es : List (String × Node)) (hopen : opendir root cwd p = .ok es)
    (htrav : traversableEntries es = true) :
    computeSessionSize root cwd p = totalBytes es % SIZE_MODULUS := by
  unfold computeSessionSize
  rw [hopen]
  simp only
  rw [walkEntries_ok es 0 SIZE_MODULUS_pos htrav]
  simp [totalBytes]

/-- A path that does not resolve cannot be opened. -/
theorem opendir_error_of_stat_error (root : Node) (cwd p : path) (e : Errno)
    (h : stat root cwd p = .error e) : opendir root cwd p = .error e := by
  unfold opendir
  rw [h]

/-! ## Lemmas on the directory tree -/

theorem lookupEntry_append_some (c : String) (es l : List (String × Node)) (m : Node)
    (h : lookupEntry c es = some m) : lookupEntry c (es ++ l) = some m := by
  induction es with
  | nil => simp [lookupEntry] at h
  | cons e rest ih =>
    obtain ⟨k, n⟩ := e
    simp only [lookupEntry, List.cons_append] at h ⊢
    split
    · next hk => simpa [hk] using h
    · next hk => simp only [hk, if_false] at h; exact ih h

theorem lookupEntry_append_none (c : String) (es l : List (String × Node))
    (h : lookupEntry c es = none) : lookupEntry c (es ++ l) = lookupEntry c l := by
  induction es with
  | nil => rfl
  | cons e rest ih =>
    obtain ⟨k, n⟩ := e
    simp only [lookupEntry, List.cons_append] at h ⊢
    split
    · next hk => simp [hk] at h
    · next hk => simp only [hk, if_false] at h; exact ih h

theorem lookupEntry_mapEntry_same (c : String) (f : Node → Node) (es : List (String × Node)) :
    lookupEntry c (mapEntry c f es) = (lookupEntry c es).map f := by
  induction es with
  | nil => rfl
  | cons e rest ih =>
    obtain ⟨k, n⟩ := e
    simp only [mapEntry, lookupEntry]
    split
    · next hk => simp [lookupEntry, hk]
    · next hk => simp [lookupEntry, hk, ih]

theorem lookupEntry_mapEntry_ne (c d : String) (f : Node → Node) (es : List (String × Node))
    (hd : d ≠ c) : lookupEntry d (mapEntry c f es) = lookupEntry d es := by
  induction es with
  | nil => rfl
  | cons e rest ih =>
    obtain ⟨k, n⟩ := e
    simp only [mapEntry, lookupEntry]
    split
    · next hk =>
      have : ¬ k = d := fun h => hd (h.symm.trans hk)
      simp [lookupEntry, this]
    · next hk => simp [lookupEntry, ih]

theorem nodeAt_append (n : Node) (a b : List String) :
    nodeAt n (a ++ b) = (nodeAt n a).bind (fun m => nodeAt m b) := by
  induction a generalizing n with
  | nil => rfl
  | cons c cs ih =>
    cases n with
    | file k => rfl
    | other => rfl
    | dir acc es =>
      simp only [List.cons_append, nodeAt]
      cases lookupEntry c es with
      | none => rfl
      | some m => exact ih m

/-- Adding a directory keeps every accessible directory an accessible directory. -/
theorem nodeAt_insertDir_dir (name : String) (q : List String) (root : Node)
    (p : List String) (es1 : List (String × Node))
    (h : nodeAt root p = some (.dir true es1)) :
    ∃ es2, nodeAt (insertDir name root q) p = some (.dir true es2) := by
  induction q generalizing root p es1 with
  | nil =>
    cases root with
    | file k => exact ⟨es1, h⟩
    | other => exact ⟨es1, h⟩
    | dir acc es =>
      cases p with
      | nil =>
        simp only [nodeAt, Option.some.injEq, Node.dir.injEq] at h
        exact ⟨es ++ [(name, .dir true [])], by simp [insertDir, nodeAt, h.1]⟩
      | cons d ps =>
        simp only [nodeAt, insertDir] at h ⊢
        cases hl : lookupEntry d es with
        | none => rw [hl] at h; cases h
        | some m =>
          rw [hl] at h
          rw [lookupEntry_append_some d es _ m hl]
          exact ⟨es1, h⟩
  | cons c cs ih =>
    cases root with
    | file k => exact ⟨es1, h⟩
    | other => exact ⟨es1, h⟩
    | dir acc es =>
      cases p with
      | nil =>
        simp only [nodeAt, Option.some.injEq, Node.dir.injEq] at h
        exact ⟨mapEntry c (fun m => insertDir name m cs) es,
          by simp [insertDir, nodeAt, h.1]⟩
      | cons d ps =>
        simp only [nodeAt, insertDir] at h ⊢
        by_cases hd : d = c
        · subst hd
          rw [lookupEntry_mapEntry_same]
          cases hl : lookupEntry d es with
          | none => rw [hl] at h; cases h
          | some m =>
            rw [hl] at h
            exact ih m ps es1 h
        · rw [lookupEntry_mapEntry_ne c d _ es hd]
          exact ⟨es1, h⟩

/-- The directory that receives the new entry lists it last. -/
theorem nodeAt_insertDir_parent (name : String) (q : List String) (root : Node)
    (acc : Bool) (es : List (String × Node)) (h : nodeAt root q = some (.dir acc es)) :
    nodeAt (insertDir name root q) q = some (.dir acc (es ++ [(name, .dir true [])])) := by
  induction q generalizing root with
  | nil =>
    simp only [nodeAt, Option.some.injEq] at h
    subst h
    rfl
  | cons c cs ih =>
    cases root with
    | file k => simp [nodeAt] at h
    | other => simp [nodeAt] at h
    | dir a0 es0 =>
      simp only [nodeAt, insertDir] at h ⊢
      rw [lookupEntry_mapEntry_same]
      cases hl : lookupEntry c es0 with
      | none => rw [hl] at h; cases h
      | some m =>
        rw [hl] at h
        exact ih m h

theorem canon_cons (root : Node) (cur : List String) (c : String) (cs : List String) :
    canon root cur (c :: cs) =
      match nodeAt root cur with
      | some (.dir true _) =>
        if c = "." then canon root cur cs
        else if c = ".." then canon root cur.dropLast cs
        else canon root (cur ++ [c]) cs
      | some (.dir false _) => .error .EACCES
      | some _ => .error .ENOTDIR
      | none => .error .ENOENT := by
  rw [canon]

theorem canon_append (root : Node) (cur a b q : List String)
    (h : canon root cur a = .ok q) : canon root cur (a ++ b) = canon root q b := by
  induction a generalizing cur with
  | nil =>
    simp only [canon, Except.ok.injEq] at h
    subst h
    rfl
  | cons c cs ih =>
    simp only [List.cons_append]
    rw [canon_cons] at h ⊢
    split at h
    · next hn =>
      split at h
      · next hc => simp only [hc, if_true]; exact ih _ h
      · next hc =>
        simp only [hc, if_false]
        split at h
        · next hc2 => simp only [hc2, if_true]; exact ih _ h
        · next hc2 => simp only [hc2, if_false]; exact ih _ h
    · cases h
    · cases h
    · cases h

theorem canon_mono (root root2 : Node)
    (hmono : ∀ p es, nodeAt root p = some (.dir true es) →
      ∃ es2, nodeAt root2 p = some (.dir true es2))
    (cur cs r : List String) (h : canon root cur cs = .ok r) :
    canon root2 cur cs = .ok r := by
  induction cs generalizing cur with
  | nil => exact h
  | cons c cs ih =>
    rw [canon_cons] at h ⊢
    split at h
    · next es hn =>
      obtain ⟨es2, hn2⟩ := hmono _ _ hn
      rw [hn2]
      simp only
      split at h
      · next hc => simp only [hc, if_true]; exact ih _ h
      · next hc =>
        simp only [hc, if_false]
        split at h
        · next hc2 => simp only [hc2, if_true]; exact ih _ h
        · next hc2 => simp only [hc2, if_false]; exact ih _ h
    · cases h
    · cases h
    · cases h

/-- What a successful `mkdir` has established. -/
theorem mkdir_ok_inv (root : Node) (cwd p : path) (root2 : Node)
    (h : mkdir root cwd p = .ok root2) :
    ∃ cs name q es, fullComponents cwd p = .ok cs ∧ cs.getLast? = some name
      ∧ canon root [] cs.dropLast = .ok q ∧ nodeAt root q = some (.dir true es)
      ∧ name ≠ "." ∧ name ≠ ".." ∧ lookupEntry name es = none
      ∧ root2 = insertDir name root q := by
  unfold mkdir at h
  split at h
  · cases h
  · next cs hcs =>
    split at h
    · cases h
    · next name hname =>
      split at h
      · cases h
      · next q hq =>
        split at h
        · next es hes =>
          split at h
          · cases h
          · next hdots =>
            split at h
            · cases h
            · next hl =>
              simp only [Except.ok.injEq] at h
              simp only [not_or] at hdots
              exact ⟨cs, name, q, es, hcs, hname, hq, hes, hdots.1, hdots.2, hl, h.symm⟩
        · cases h
        · cases h
        · cases h

/-- After a successful `mkdir` the path is a directory and `mkdir` fails on it. -/
theorem mkdir_ok_then (root : Node) (cwd p : path) (root2 : Node)
    (h : mkdir root cwd p = .ok root2) :
    mkdir root2 cwd p = .error .EEXIST ∧ is_directory root2 cwd p = .ok true := by
  obtain ⟨cs, name, q, es, hcs, hname, hq, hes, hd1, hd2, hl, hroot2⟩ := mkdir_ok_inv root cwd p root2 h
  subst hroot2
  have hq2 : canon (insertDir name root q) [] cs.dropLast = .ok q :=
    canon_mono root _ (fun p es h => nodeAt_insertDir_dir name q root p es h) _ _ _ hq
  have hes2 := nodeAt_insertDir_parent name q root true es hes
  have hl2 : lookupEntry name (es ++ [(name, Node.dir true [])]) = some (.dir true []) := by
    rw [lookupEntry_append_none name es _ hl]
    simp [lookupEntry]
  constructor
  · unfold mkdir
    rw [hcs]
    simp only
    rw [hname]
    simp only
    rw [hq2]
    simp only
    rw [hes2]
    simp only [hd1, hd2, or_self, if_false]
    rw [hl2]
  · have hsplit : cs = cs.dropLast ++ [name] :=
      (List.dropLast_append_getLast? name (by simp [hname])).symm
    have hc : canon (insertDir name root q) [] cs = .ok (q ++ [name]) := by
      rw [hsplit, canon_append _ _ _ _ _ hq2, canon_cons, hes2]
      simp only [hd1, hd2, if_false]
      rfl
    have hn : nodeAt (insertDir name root q) (q ++ [name]) = some (.dir true []) := by
      rw [nodeAt_append, hes2]
      simp only [Option.bind, nodeAt]
      rw [hl2]
    unfold is_directory stat
    rw [hcs]
    simp only
    rw [hc]
    simp only
    rw [hn]

/-! ## Lemmas on the argument copy and the command line -/

theorem copyLoop_spec (rest : List String) (pre : List (Option String)) (k : Nat)
    (h : rest.length ≤ k) :
    copyLoop rest pre.length (pre ++ List.replicate k none)
      = some (pre ++ rest.map some ++ List.replicate (k - rest.length) none) := by
  induction rest generalizing pre k with
  | nil => simp [copyLoop]
  | cons s rest ih =>
    cases k with
    | zero => simp at h
    | succ k =>
      simp only [List.length_cons, Nat.add_le_add_iff_right] at h
      have hset : storeAt (pre ++ List.replicate (k + 1) none) pre.length (some s)
          = some ((pre ++ [some s]) ++ List.replicate k none) := by
        simp [storeAt, List.replicate_succ]
      simp only [copyLoop, hset]
      have := ih (pre ++ [some s]) k h
      simp only [List.length_append, List.length_singleton] at this
      rw [this]
      simp

theorem copyArguments_spec (argv : List String) (h : argv.length ≤ 255) :
    copyArguments (List.replicate 256 none) argv
      = some (argv.map some ++ List.replicate (256 - argv.length) none) := by
  have h1 := copyLoop_spec argv [] 256 (by omega)
  simp only [List.length_nil, List.nil_append] at h1
  unfold copyArguments
  rw [h1]
  simp only
  obtain ⟨k, hk⟩ : ∃ k, 256 - argv.length = k + 1 := ⟨255 - argv.length, by omega⟩
  rw [hk]
  simp [storeAt, List.replicate_succ]

theorem execArgs_spec (argv : List String) (k : Nat) :
    execArgs (argv.map some ++ List.replicate (k + 1) none) = argv := by
  induction argv with
  | nil => simp [execArgs, List.replicate_succ]
  | cons s rest ih => simp [execArgs, ih]

theorem take_arguments (argv : List String) (k : Nat) :
    (argv.map some ++ List.replicate (k + 1) none).take (argv.length + 1)
      = argv.map some ++ [none] := by
  induction argv with
  | nil => simp [List.replicate_succ]
  | cons s rest ih => simpa using ih

theorem count_help (vm : variables_map) : vm.count "help" = if vm.help then 1 else 0 := rfl
theorem count_port (vm : variables_map) :
    vm.count "port" = if vm.port.isSome then 1 else 0 := rfl
theorem count_max_clients (vm : variables_map) :
    vm.count "max-clients" = if vm.max_clients.isSome then 1 else 0 := rfl
theorem count_max_sessions (vm : variables_map) :
    vm.count "max-sessions" = if vm.max_sessions.isSome then 1 else 0 := rfl
theorem count_logfile (vm : variables_map) : vm.count "logfile" = 0 := rfl
theorem count_allow_any_origin (vm : variables_map) : vm.count "allow-any-origin" = 0 := rfl
theorem count_sessions_dir (vm : variables_map) :
    vm.count "sessions-dir" = if vm.sessions_dir.isSome then 1 else 0 := rfl
theorem count_verbose (vm : variables_map) :
    vm.count "verbose" = if vm.verbose.isSome then 1 else 0 := rfl
theorem count_recover_cmd (vm : variables_map) :
    vm.count "recover-cmd" = if vm.recover_cmd.isSome then 1 else 0 := rfl
theorem as_int_port (vm : variables_map) : vm.as_int "port" = vm.port.getD 0 := rfl
theorem as_int_max_clients (vm : variables_map) :
    vm.as_int "max-clients" = vm.max_clients.getD 0 := rfl
theorem as_int_max_sessions (vm : variables_map) :
    vm.as_int "max-sessions" = vm.max_sessions.getD 0 := rfl
theorem as_int_verbose (vm : variables_map) : vm.as_int "verbose" = vm.verbose.getD 0 := rfl
theorem as_string_sessions_dir (vm : variables_map) :
    vm.as_string "sessions-dir" = vm.sessions_dir.getD "" := rfl
theorem as_string_recover_cmd (vm : variables_map) :
    vm.as_string "recover-cmd" = vm.recover_cmd.getD "" := rfl

theorem process_cmdline_help (vm : variables_map) (g : Globals) (h : vm.help = true) :
    process_cmdline (.ok vm) g = ([.cout_usage], .error (.exited 0)) := by
  simp [process_cmdline, count_help, h]

theorem process_cmdline_ok (vm : variables_map) (g : Globals) (h : vm.help = false) :
    process_cmdline (.ok vm) g = ([], .ok
      { g with
        gPort := vm.port.getD g.gPort
        gMaxClients := vm.max_clients.getD g.gMaxClients
        gMaxSessions := vm.max_sessions.getD g.gMaxSessions
        gSessionsDirectory := vm.sessions_dir.getD g.gSessionsDirectory
        gVerbosity := vm.verbose.getD g.gVerbosity
        gRecoverCmd := vm.recover_cmd.getD g.gRecoverCmd }) := by
  obtain ⟨sd, hlp, ao, mc, po, ms, vb, rc⟩ := vm
  simp only at h
  subst h
  simp only [process_cmdline, count_help, count_port, count_max_clients, count_max_sessions,
    count_logfile, count_allow_any_origin, count_sessions_dir, count_verbose, count_recover_cmd,
    as_int_port, as_int_max_clients, as_int_max_sessions, as_int_verbose,
    as_string_sessions_dir, as_string_recover_cmd]
  cases po <;> cases mc <;> cases ms <;> cases sd <;> cases vb <;> cases rc <;> rfl

theorem main_eq (i : Inputs) (h : i.argv.length ≤ 255) :
    main i =
      match process_cmdline i.parsed (entryGlobals i) with
      | (pev, .error .thrown) =>
        { events := catchsigs ++ pev ++ [.cerr "Unknown parameter"], globals := entryGlobals i,
          root := i.root, outcome := .exit 1 }
      | (pev, .error (.exited status)) =>
        { events := catchsigs ++ pev, globals := entryGlobals i, root := i.root,
          outcome := .exit status }
      | (pev, .ok g) => directories i g (catchsigs ++ pev ++ report i g) := by
  unfold main
  simp only
  rw [copyArguments_spec i.argv h]
  rfl

/-! ## Lemmas on the start-up sequence -/

theorem serve_globals (i : Inputs) (g : Globals) (root : Node) (ev : List Event) :
    (serve i g root ev).globals = g := by
  unfold serve
  split <;> rfl

theorem directories_globals (i : Inputs) (g : Globals) (ev : List Event) :
    (directories i g ev).globals = g := by
  unfold directories
  simp only
  split
  · rfl
  · rfl
  · split
    · rfl
    · exact serve_globals _ _ _ _

theorem printFaustVersion_commits (err : Int) :
    ∀ e ∈ printFaustVersion err, e.commits = false := by
  intro e he
  unfold printFaustVersion at he
  simp only [List.mem_append, List.mem_singleton] at he
  rcases he with he | he
  · subst he; rfl
  · split at he
    · simp only [List.mem_singleton] at he; subst he; rfl
    · cases he

theorem report_commits (i : Inputs) (g : Globals) :
    ∀ e ∈ report i g, e.commits = false := by
  intro e he
  unfold report at he
  split at he
  · simp only [List.mem_append, List.mem_cons, List.mem_singleton, List.not_mem_nil,
      or_false] at he
    rcases he with ((he | he) | he) | he
    · subst he; rfl
    · subst he; rfl
    · exact printFaustVersion_commits _ e he
    · split at he
      · simp only [List.mem_singleton] at he; subst he; rfl
      · cases he
  · cases he

theorem catchsigs_touches : ∀ e ∈ catchsigs, e.touches = false := by
  intro e he
  simp only [catchsigs, List.mem_cons, List.mem_singleton, List.not_mem_nil, or_false] at he
  rcases he with he | he | he <;> subst he <;> rfl

theorem catchsigs_commits : ∀ e ∈ catchsigs, e.commits = false := by
  intro e he
  simp only [catchsigs, List.mem_cons, List.mem_singleton, List.not_mem_nil, or_false] at he
  rcases he with he | he | he <;> subst he <;> rfl

/-- When the makefiles directory is not found to be a directory, `directories`
stops right after the check. -/
theorem directories_stop (i : Inputs) (g : Globals) (ev : List Event)
    (h : is_directory i.root i.cwd g.gMakefilesDirectory ≠ .ok true) :
    ((directories i g ev).outcome = .exit 1 ∨ (directories i g ev).outcome = .terminate)
      ∧ (is_directory i.root i.cwd g.gMakefilesDirectory = .ok false →
          (directories i g ev).outcome = .exit 1)
      ∧ (directories i g ev).root = i.root
      ∧ ∃ tail, (directories i g ev).events = ev ++ .is_directory g.gMakefilesDirectory :: tail
          ∧ ∀ e ∈ tail, e.commits = false := by
  unfold directories
  simp only
  split
  · next e he =>
    refine ⟨Or.inr rfl, ?_, rfl, [], by simp, by simp⟩
    intro h2
    rw [he] at h2
    cases h2
  · refine ⟨Or.inl rfl, fun _ => rfl, rfl, [.cerr "ERROR: no makefiles directory available at path "],
      by simp, ?_⟩
    intro e he
    simp only [List.mem_singleton] at he
    subst he
    rfl
  · next he => exact absurd he h

theorem is_absolute_path_append (p q : path) (h : is_absolute p = true) :
    is_absolute (path_append p q) = true := by
  unfold is_absolute at h
  cases hp : p.data with
  | nil => rw [hp] at h; cases h
  | cons c cs =>
    rw [hp] at h
    simp only at h
    unfold path_append
    split
    · unfold is_absolute; rw [hp]; exact h
    · split
      · simp [is_absolute, hp, h]
      · split
        · simp [is_absolute, hp, h]
        · split
          · simp [is_absolute, hp, h]
          · simp [is_absolute, hp, h]

theorem absolute_of_is_absolute (cwd : path) (h : is_absolute cwd = true) :
    absolute cwd cwd = cwd := by
  simp [absolute, h]

theorem length_pos_iff_ne_empty (s : String) : s.length > 0 ↔ s ≠ "" := by
  constructor
  · intro h hs
    subst hs
    simp at h
  · intro h
    by_contra hlen
    apply h
    have h0 : s.length = 0 := by omega
    apply String.ext
    exact List.length_eq_zero.mp h0

theorem serve_mem (i : Inputs) (g : Globals) (root : Node) (ev : List Event) (e : Event)
    (he : e ∈ ev) : e ∈ (serve i g root ev).events := by
  unfold serve
  simp only
  split <;> simp [he]

theorem directories_mem (i : Inputs) (g : Globals) (ev : List Event) (e : Event)
    (he : e ∈ ev) : e ∈ (directories i g ev).events := by
  unfold directories
  simp only
  split
  · simp [he]
  · simp [he]
  · split
    · simp [he]
    · exact serve_mem _ _ _ _ _ (by simp [he])

/-- The run of an invocation that parses and does not ask for help. -/
theorem main_resolved (i : Inputs) (vm : variables_map) (hargc : i.argv.length ≤ 255)
    (hparsed : i.parsed = .ok vm) (hhelp : vm.help = false) :
    ∃ g, process_cmdline i.parsed (entryGlobals i) = ([], .ok g)
      ∧ main i = directories i g (catchsigs ++ [] ++ report i g)
      ∧ g.gPort = vm.port.getD 8888
      ∧ g.gMaxClients = vm.max_clients.getD 2
      ∧ g.gMaxSessions = vm.max_sessions.getD 50
      ∧ g.gVerbosity = vm.verbose.getD 0
      ∧ g.gRecoverCmd = vm.recover_cmd.getD ""
      ∧ g.gSessionsDirectory
          = vm.sessions_dir.getD (path_append (absolute i.cwd i.cwd) "sessions")
      ∧ g.gAnyOrigin = true
      ∧ g.gLogfile = ""
      ∧ g.gCurrentDirectory = absolute i.cwd i.cwd
      ∧ g.gMakefilesDirectory = path_append (absolute i.cwd i.cwd) "makefiles"
      ∧ g.gArguments = i.argv.map some ++ List.replicate (256 - i.argv.length) none := by
  have hp := process_cmdline_ok vm (entryGlobals i) hhelp
  rw [← hparsed] at hp
  refine ⟨_, hp, ?_, rfl, rfl, rfl, rfl, rfl, rfl, rfl, rfl, rfl, rfl, rfl⟩
  rw [main_eq i hargc, hp]

/-- The run of an invocation that asks for help. -/
theorem main_help (i : Inputs) (vm : variables_map) (hargc : i.argv.length ≤ 255)
    (hparsed : i.parsed = .ok vm) (hhelp : vm.help = true) :
    main i = { events := catchsigs ++ [.cout_usage], globals := entryGlobals i,
               root := i.root, outcome := .exit 0 } := by
  rw [main_eq i hargc, hparsed, process_cmdline_help vm _ hhelp]

/-- The run of an invocation that the option parser rejects. -/
theorem main_thrown (i : Inputs) (u : Unit) (hargc : i.argv.length ≤ 255)
    (hparsed : i.parsed = .error u) :
    main i = { events := catchsigs ++ [] ++ [.cerr "Unknown parameter"],
               globals := entryGlobals i, root := i.root, outcome := .exit 1 } := by
  rw [main_eq i hargc, hparsed]
  rfl

/-! ## The session accountant: C1, C2, C3 -/

/-- C1 (counterexample): on a traversable sessions directory holding three
files of `2 ^ 63 - 1` bytes, `computeSessionSize` returns `2 ^ 63 - 3`, which
is not the sum of the sizes: the `size_t` accumulator wraps. -/
theorem computeSessionSize_not_exact_sum :
    opendir sparseTree "/srv" "/srv/sessions"
        = .ok [("a", .file (2 ^ 63 - 1)), ("b", .file (2 ^ 63 - 1)), ("c", .file (2 ^ 63 - 1))]
      ∧ traversableEntries
        [("a", .file (2 ^ 63 - 1)), ("b", .file (2 ^ 63 - 1)), ("c", .file (2 ^ 63 - 1))] = true
      ∧ totalBytes
        [("a", .file (2 ^ 63 - 1)), ("b", .file (2 ^ 63 - 1)), ("c", .file (2 ^ 63 - 1))]
          = 3 * (2 ^ 63 - 1)
      ∧ computeSessionSize sparseTree "/srv" "/srv/sessions" = 2 ^ 63 - 3
      ∧ computeSessionSize sparseTree "/srv" "/srv/sessions" ≠ 3 * (2 ^ 63 - 1) := by
  refine ⟨rfl, rfl, by decide, by decide, by decide⟩

/-- C1 (amended): for every sessions directory that opens and whose tree is
traversable (no entry whose size cannot be read, no inaccessible directory),
the walk completes without error and `computeSessionSize` returns the sum of
the sizes of the regular files at every depth reduced modulo `2 ^ 64`, hence
exactly that sum when it is below `2 ^ 64`; directories contribute nothing, and
any other traversable directory holding the same files, however nested, gives
the same result. -/
theorem computeSessionSize_sum_mod (root : Node) (cwd p : path)
    (es : List (String × Node)) (hopen : opendir root cwd p = .ok es)
    (htrav : traversableEntries es = true) :
    walkEntries 0 es = .ok (computeSessionSize root cwd p)
      ∧ computeSessionSize root cwd p = totalBytes es % SIZE_MODULUS
      ∧ (totalBytes es < SIZE_MODULUS → computeSessionSize root cwd p = totalBytes es)
      ∧ ∀ (root2 : Node) (cwd2 p2 : path) (es2 : List (String × Node)),
          opendir root2 cwd2 p2 = .ok es2 → traversableEntries es2 = true →
          (entriesFileSizes es2).Perm (entriesFileSizes es) →
          computeSessionSize root2 cwd2 p2 = computeSessionSize root cwd p := by
  have h1 := computeSessionSize_of_traversable root cwd p es hopen htrav
  refine ⟨?_, h1, ?_, ?_⟩
  · rw [h1, walkEntries_ok es 0 SIZE_MODULUS_pos htrav]
    simp [totalBytes]
  · intro hlt
    rw [h1, Nat.mod_eq_of_lt hlt]
  · intro root2 cwd2 p2 es2 hopen2 htrav2 hperm
    rw [h1, computeSessionSize_of_traversable root2 cwd2 p2 es2 hopen2 htrav2]
    unfold totalBytes
    rw [hperm.sum_eq]

/-- C1 (witness): in `exampleTree` the result is 60, and it is the same in
`nestedTree`, where the 20-byte file lies two directories down. -/
theorem computeSessionSize_sum_mod_witness :
    computeSessionSize exampleTree "/srv" "sessions" = 60
      ∧ computeSessionSize nestedTree "/srv" "/srv/sessions"
        = computeSessionSize exampleTree "/srv" "sessions" :=
  have h := computeSessionSize_sum_mod exampleTree "/srv" "sessions"
    [("a", .file 10), ("b", .file 20), ("c", .file 30)] rfl rfl
  ⟨h.2.2.1 (by decide), h.2.2.2 nestedTree "/srv" "/srv/sessions"
    [("a", .file 10), ("x", .dir true [("y", .dir true [("b", .file 20)])]), ("c", .file 30)]
    rfl rfl (by decide)⟩

/-- C2: `computeSessionSize` always returns a number, and that number is 0
when the sessions directory does not exist, when it cannot be opened, when the
walk raises an error (somewhere in the tree there is an entry whose size cannot
be read or a directory that cannot be opened, whatever was summed before), and
when the directory is empty. -/
theorem computeSessionSize_zero (root : Node) (cwd p : path)
    (h : stat root cwd p = .error .ENOENT
      ∨ (∃ e, opendir root cwd p = .error e)
      ∨ (∃ es e, opendir root cwd p = .ok es ∧ walkEntries 0 es = .error e)
      ∨ (∃ es, opendir root cwd p = .ok es ∧ traversableEntries es = false)
      ∨ opendir root cwd p = .ok []) :
    computeSessionSize root cwd p = 0 := by
  unfold computeSessionSize
  rcases h with h | ⟨e, h⟩ | ⟨es, e, h, hw⟩ | ⟨es, h, ht⟩ | h
  · rw [opendir_error_of_stat_error root cwd p _ h]
  · rw [h]
  · rw [h]
    simp only
    rw [hw]
  · rw [h]
    simp only
    obtain ⟨e, he⟩ := walkEntries_error es 0 ht
    rw [he]
  · rw [h]
    rfl

/-- C2 (witness): a 10-byte file followed by a FIFO gives 0, not 10. -/
theorem computeSessionSize_zero_witness :
    computeSessionSize fifoTree "/srv" "/srv/sessions" = 0 :=
  computeSessionSize_zero fifoTree "/srv" "/srv/sessions"
    (Or.inr (Or.inr (Or.inr (Or.inl ⟨[("a", .file 10), ("pipe", .other)], rfl, rfl⟩))))

/-- C3 (counterexample): on a sessions directory holding exactly three files
of 10, 20 and 30 bytes and no subdirectory the result is 60, not 40. -/
theorem three_files_give_60 :
    opendir exampleTree "/srv" "/srv/sessions"
        = .ok [("a", .file 10), ("b", .file 20), ("c", .file 30)]
      ∧ computeSessionSize exampleTree "/srv" "/srv/sessions" = 60
      ∧ computeSessionSize exampleTree "/srv" "/srv/sessions" ≠ 40 := by
  refine ⟨rfl, by decide, by decide⟩

/-- C3 (amended): on a sessions directory that contains exactly three files of
sizes 10, 20 and 30 bytes, in any order and under any names, and no
subdirectory, `computeSessionSize` returns 60. -/
theorem computeSessionSize_three_files (root : Node) (cwd p : path)
    (n1 n2 n3 : String) (s1 s2 s3 : Nat)
    (hopen : opendir root cwd p = .ok [(n1, .file s1), (n2, .file s2), (n3, .file s3)])
    (hsizes : [s1, s2, s3].Perm [10, 20, 30]) :
    computeSessionSize root cwd p = 60 := by
  have h := computeSessionSize_of_traversable root cwd p _ hopen rfl
  rw [h]
  have hs : totalBytes [(n1, .file s1), (n2, .file s2), (n3, .file s3)]
      = [s1, s2, s3].sum := by
    simp [totalBytes, entriesFileSizes, Node.fileSizes]
  rw [hs, hsizes.sum_eq]
  decide

/-- C3 (witness): the files listed as 30, 10, 20 give 60. -/
theorem computeSessionSize_three_files_witness :
    computeSessionSize
      (.dir true [("sessions", .dir true [("c", .file 30), ("a", .file 10), ("b", .file 20)])])
      "/" "sessions" = 60 :=
  computeSessionSize_three_files _ "/" "sessions" "c" "a" "b" 30 10 20 rfl (by decide)

/-! ## The fault handler: C4 -/

/-- C4: for every invocation with at most 255 arguments whose command line
parses without `--help`, and every signal the handler is registered for
(SIGSEGV, SIGILL, SIGFPE): the handler is installed for the signal; the
recovery command is the value of `--recover-cmd`, empty without the flag; when
it is non-empty the handler ends in `execv` of that command on `gArguments`,
which holds the original `argv[0..argc-1]` in order followed by a null pointer,
so that the new program receives exactly the original arguments; when it is
empty the handler ends in `exit(-1)`, a non-zero status, and not in `execv`. -/
theorem fault_handler_outcome (i : Inputs) (vm : variables_map) (signal : Nat)
    (hargc : i.argv.length ≤ 255) (hparsed : i.parsed = .ok vm) (hhelp : vm.help = false)
    (hsig : signal = SIGSEGV ∨ signal = SIGILL ∨ signal = SIGFPE) :
    Event.sigaction signal ∈ (main i).events
      ∧ (main i).globals.gRecoverCmd = vm.recover_cmd.getD ""
      ∧ ((main i).globals.gRecoverCmd ≠ "" →
          (_sigaction (main i).globals signal).2
              = .execv (main i).globals.gRecoverCmd (main i).globals.gArguments
            ∧ (main i).globals.gArguments.take (i.argv.length + 1) = i.argv.map some ++ [none]
            ∧ execArgs (main i).globals.gArguments = i.argv)
      ∧ ((main i).globals.gRecoverCmd = "" →
          (_sigaction (main i).globals signal).2 = .exit (-1) ∧ exitStatus (-1) ≠ 0) := by
  obtain ⟨g, _, hmain, _, _, _, _, hrec, _, _, _, _, _, hargs⟩ :=
    main_resolved i vm hargc hparsed hhelp
  have hg : (main i).globals = g := by rw [hmain]; exact directories_globals _ _ _
  obtain ⟨k, hk⟩ : ∃ k, 256 - i.argv.length = k + 1 := ⟨255 - i.argv.length, by omega⟩
  rw [hg]
  refine ⟨?_, hrec, ?_, ?_⟩
  · rw [hmain]
    apply directories_mem
    have : Event.sigaction signal ∈ catchsigs := by
      rcases hsig with h | h | h <;> subst h <;> simp [catchsigs]
    simp [this]
  · intro hne
    have hlen : g.gRecoverCmd.length > 0 := (length_pos_iff_ne_empty _).mpr hne
    refine ⟨by simp [_sigaction, hlen], ?_, ?_⟩
    · rw [hargs, hk]; exact take_arguments _ _
    · rw [hargs, hk]; exact execArgs_spec _ _
  · intro he
    refine ⟨by simp [_sigaction, he], by decide⟩

/-- C4 (witness): `faustweb --port 8000 --recover-cmd /usr/bin/faustweb` and
SIGSEGV. -/
theorem fault_handler_outcome_witness :
    (main recoverInvocation).globals.gRecoverCmd = "/usr/bin/faustweb"
      ∧ execArgs (main recoverInvocation).globals.gArguments
        = ["faustweb", "--port", "8000", "--recover-cmd", "/usr/bin/faustweb"] :=
  have h := fault_handler_outcome recoverInvocation
    { port := some 8000, recover_cmd := some "/usr/bin/faustweb" } SIGSEGV
    (by decide) rfl rfl (Or.inl rfl)
  ⟨h.2.1, (h.2.2.1 (by rw [h.2.1]; decide)).2.2⟩

/-! ## Help: C5 -/

/-- C5 (counterexample): on `faustweb --help` the program exits with status 0
after the handler has been registered for SIGSEGV, SIGILL and SIGFPE; and on
`faustweb --help --bogus`, a command line that contains `--help` and that the
option parser rejects, the program exits with status 1. -/
theorem help_after_signal_installation :
    ((main helpInvocation).outcome = .exit 0
      ∧ (main helpInvocation).events
        = [.sigaction SIGSEGV, .sigaction SIGILL, .sigaction SIGFPE, .cout_usage])
      ∧ "--help" ∈ helpBogusInvocation.argv
      ∧ (main helpBogusInvocation).outcome = .exit 1 := by
  rw [main_help helpInvocation { help := true } (by decide) rfl rfl,
    main_thrown helpBogusInvocation () (by decide) rfl]
  exact ⟨⟨rfl, rfl⟩, by decide, rfl⟩

/-- C5 (amended): for every command line of at most 255 arguments that the
option parser accepts and that contains `--help` (or `-h`), the program prints
the usage and exits with status 0; before the exit it has registered the fault
handler (the first thing `main` does) and has performed no directory check,
walk or creation and no construction or start of the server, and the directory
tree is untouched. -/
theorem help_exits_zero (i : Inputs) (vm : variables_map) (hargc : i.argv.length ≤ 255)
    (hparsed : i.parsed = .ok vm) (hhelp : vm.count "help" > 0) :
    (main i).outcome = .exit 0
      ∧ exitStatus 0 = 0
      ∧ (main i).events = catchsigs ++ [.cout_usage]
      ∧ (∀ e ∈ (main i).events, e.touches = false)
      ∧ (main i).root = i.root := by
  have hh : vm.help = true := by
    rw [count_help] at hhelp
    cases hb : vm.help with
    | true => rfl
    | false => rw [hb] at hhelp; simp at hhelp
  rw [main_help i vm hargc hparsed hh]
  refine ⟨rfl, by decide, rfl, ?_, rfl⟩
  intro e he
  simp only [List.mem_append, List.mem_singleton] at he
  rcases he with he | he
  · exact catchsigs_touches e he
  · subst he; rfl

/-- C5 (witness): `faustweb --help`. -/
theorem help_exits_zero_witness :
    (main helpInvocation).outcome = .exit 0 ∧ (main helpInvocation).root = exampleTree :=
  have h := help_exits_zero helpInvocation { help := true } (by decide) rfl (by decide)
  ⟨h.1, h.2.2.2.2⟩

/-! ## The resolved configuration: C6, C8 -/

/-- C6 (counterexample): `faustweb --sessions-dir cache`, started in the
absolute directory `/srv`, is accepted and runs the server with the sessions
directory `cache`, which is not an absolute path. -/
theorem sessions_dir_not_absolute :
    is_absolute relativeInvocation.cwd = true
      ∧ relativeInvocation.parsed = .ok { sessions_dir := some "cache" }
      ∧ (main relativeInvocation).globals.gSessionsDirectory = "cache"
      ∧ is_absolute (main relativeInvocation).globals.gSessionsDirectory = false := by
  obtain ⟨g, _, hmain, _, _, _, _, _, hs, _⟩ :=
    main_resolved relativeInvocation { sessions_dir := some "cache" } (by decide) rfl rfl
  have hg : (main relativeInvocation).globals = g := by
    rw [hmain]; exact directories_globals _ _ _
  rw [hg, hs]
  exact ⟨by decide, rfl, rfl, by decide⟩

/-- C6 (amended): for every command line of at most 255 arguments that the
resolver accepts without `--help`, in a process whose current path is absolute,
the resolved root directory and build-definitions directory are absolute
paths; the session-cache directory is an absolute path when `--sessions-dir` is
absent, and is the value of `--sessions-dir` unchanged when the flag is
present, hence absolute exactly when that value is. -/
theorem directory_fields (i : Inputs) (vm : variables_map) (hcwd : is_absolute i.cwd = true)
    (hargc : i.argv.length ≤ 255) (hparsed : i.parsed = .ok vm) (hhelp : vm.help = false) :
    is_absolute (main i).globals.gCurrentDirectory = true
      ∧ is_absolute (main i).globals.gMakefilesDirectory = true
      ∧ (vm.sessions_dir = none → is_absolute (main i).globals.gSessionsDirectory = true)
      ∧ (∀ d, vm.sessions_dir = some d →
          (main i).globals.gSessionsDirectory = d
            ∧ is_absolute (main i).globals.gSessionsDirectory = is_absolute d) := by
  obtain ⟨g, _, hmain, _, _, _, _, _, hs, _, _, hc, hm, _⟩ :=
    main_resolved i vm hargc hparsed hhelp
  have hg : (main i).globals = g := by rw [hmain]; exact directories_globals _ _ _
  rw [hg, hc, hm, hs, absolute_of_is_absolute i.cwd hcwd]
  refine ⟨hcwd, is_absolute_path_append _ _ hcwd, ?_, ?_⟩
  · intro hn
    rw [hn]
    exact is_absolute_path_append i.cwd "sessions" hcwd
  · intro d hd
    rw [hd]
    exact ⟨rfl, rfl⟩

/-- C6 (witness): `faustweb --port 8000 --recover-cmd /usr/bin/faustweb` in
`/srv`. -/
theorem directory_fields_witness :
    is_absolute (main recoverInvocation).globals.gMakefilesDirectory = true
      ∧ is_absolute (main recoverInvocation).globals.gSessionsDirectory = true :=
  have h := directory_fields recoverInvocation
    { port := some 8000, recover_cmd := some "/usr/bin/faustweb" } (by decide) (by decide)
    rfl rfl
  ⟨h.2.1, h.2.2.1 rfl⟩

/-- C8: for every command line of at most 255 arguments accepted without
`--help`, each of port, max-clients, max-sessions, verbosity, recovery command
and session-cache directory of the resolved configuration is the value of its
flag when the flag is present and its default otherwise (8888, 2, 50, 0, the
empty string, root/"sessions"); each depends on its own flag only;
allow-any-origin is true and the build-definitions directory is
root/"makefiles" in every case, the root being the current path made
absolute. -/
theorem resolved_configuration (i : Inputs) (vm : variables_map)
    (hargc : i.argv.length ≤ 255) (hparsed : i.parsed = .ok vm) (hhelp : vm.help = false) :
    (main i).globals.gPort = vm.port.getD 8888
      ∧ (main i).globals.gMaxClients = vm.max_clients.getD 2
      ∧ (main i).globals.gMaxSessions = vm.max_sessions.getD 50
      ∧ (main i).globals.gVerbosity = vm.verbose.getD 0
      ∧ (main i).globals.gRecoverCmd = vm.recover_cmd.getD ""
      ∧ (main i).globals.gSessionsDirectory
          = vm.sessions_dir.getD (path_append (main i).globals.gCurrentDirectory "sessions")
      ∧ (main i).globals.gAnyOrigin = true
      ∧ (main i).globals.gMakefilesDirectory
          = path_append (main i).globals.gCurrentDirectory "makefiles"
      ∧ (main i).globals.gCurrentDirectory = absolute i.cwd i.cwd := by
  obtain ⟨g, _, hmain, h1, h2, h3, h4, h5, h6, h7, _, h9, h10, _⟩ :=
    main_resolved i vm hargc hparsed hhelp
  have hg : (main i).globals = g := by rw [hmain]; exact directories_globals _ _ _
  rw [hg, h9]
  exact ⟨h1, h2, h3, h4, h5, h6, h7, h10, rfl⟩

/-- C8 (witness): `faustweb --port 8000 --recover-cmd /usr/bin/faustweb`: the
port and the recovery command are the given ones, max-clients keeps its
default. -/
theorem resolved_configuration_witness :
    (main recoverInvocation).globals.gPort = 8000
      ∧ (main recoverInvocation).globals.gMaxClients = 2
      ∧ (main recoverInvocation).globals.gRecoverCmd = "/usr/bin/faustweb" :=
  have h := resolved_configuration recoverInvocation
    { port := some 8000, recover_cmd := some "/usr/bin/faustweb" } (by decide) rfl rfl
  ⟨h.1, h.2.1, h.2.2.2.2.1⟩

/-! ## Failing start-up: C7, C9 -/

/-- C7: for every command line of at most 255 arguments accepted without
`--help`, and every directory tree in which root/"makefiles" is not found to be
a directory, start-up ends unsuccessfully (by `exit(1)` when the path is
missing or is not a directory, by termination on the uncaught library
exception when it cannot be examined), without any attempt to create the
session-cache directory and without constructing or starting the server; the
directory tree is untouched. -/
theorem missing_makefiles_stops (i : Inputs) (vm : variables_map)
    (hargc : i.argv.length ≤ 255) (hparsed : i.parsed = .ok vm) (hhelp : vm.help = false)
    (hmake : is_directory i.root i.cwd (path_append (absolute i.cwd i.cwd) "makefiles")
      ≠ .ok true) :
    (main i).outcome.failed = true
      ∧ (is_directory i.root i.cwd (path_append (absolute i.cwd i.cwd) "makefiles") = .ok false
          → (main i).outcome = .exit 1)
      ∧ (∀ e ∈ (main i).events, e.commits = false)
      ∧ (main i).root = i.root := by
  obtain ⟨g, _, hmain, _, _, _, _, _, _, _, _, _, hm, _⟩ :=
    main_resolved i vm hargc hparsed hhelp
  rw [← hm] at hmake ⊢
  obtain ⟨hout, hexit, hroot, tail, hev, htail⟩ :=
    directories_stop i g (catchsigs ++ [] ++ report i g) hmake
  rw [hmain]
  refine ⟨?_, hexit, ?_, hroot⟩
  · rcases hout with h | h <;> rw [h] <;> decide
  · intro e he
    rw [hev] at he
    simp only [List.append_nil, List.mem_append, List.mem_cons] at he
    rcases he with (he | he) | he | he
    · exact catchsigs_commits e he
    · exact report_commits i g e he
    · subst he; rfl
    · exact htail e he

/-- C7 (witness): `faustweb -v 1` in a directory without `makefiles`. -/
theorem missing_makefiles_stops_witness :
    (main bareInvocation).outcome = .exit 1 ∧ (main bareInvocation).root = bareTree :=
  have hne : is_directory bareInvocation.root bareInvocation.cwd
      (path_append (absolute bareInvocation.cwd bareInvocation.cwd) "makefiles") ≠ .ok true :=
    fun hc => Bool.noConfusion (Except.ok.inj hc)
  have h := missing_makefiles_stops bareInvocation { verbose := some 1 } (by decide) rfl rfl
    hne
  ⟨h.2.1 rfl, h.2.2.2⟩

/-- C9: for every command line of at most 255 arguments on which option
parsing fails, the program reports "Unknown parameter" and exits with status
1; it has performed no directory check, walk or creation and has neither
constructed nor started the server, the directory tree is untouched, and the
global variables hold nothing taken from the command line. -/
theorem parse_failure_exits (i : Inputs) (u : Unit) (hargc : i.argv.length ≤ 255)
    (hparsed : i.parsed = .error u) :
    (main i).outcome = .exit 1
      ∧ (main i).outcome.failed = true
      ∧ (main i).events = catchsigs ++ [.cerr "Unknown parameter"]
      ∧ (∀ e ∈ (main i).events, e.touches = false)
      ∧ (main i).root = i.root
      ∧ (main i).globals = entryGlobals i := by
  rw [main_thrown i u hargc hparsed]
  refine ⟨rfl, rfl, rfl, ?_, rfl, rfl⟩
  intro e he
  simp only [List.append_nil, List.mem_append, List.mem_singleton] at he
  rcases he with he | he
  · exact catchsigs_touches e he
  · subst he; rfl

/-- C9 (witness): `faustweb --bogus`. -/
theorem parse_failure_exits_witness :
    (main bogusInvocation).outcome = .exit 1 ∧ (main bogusInvocation).root = exampleTree :=
  have h := parse_failure_exits bogusInvocation () (by decide) rfl
  ⟨h.1, h.2.2.2.2.1⟩

/-! ## The sessions directory: C10 -/

/-- C10: whenever the step that ensures the sessions directory succeeds
(creating the directory or reusing it), running it again on the resulting tree
with the same path succeeds in the reuse branch (`create_directory` returns
false) and returns the tree unchanged, so that every file is as the first run
left it. -/
theorem sessions_step_idempotent (root : Node) (cwd : path) (g : Globals) (created : Bool)
    (ev1 : List Event) (root1 : Node)
    (h : sessions_step root cwd g = .ok (created, ev1, root1)) :
    create_directory root1 cwd g.gSessionsDirectory = .ok (false, root1)
      ∧ sessions_step root1 cwd g = .ok (false,
          [.create_directory g.gSessionsDirectory]
            ++ (if g.gVerbosity ≥ 1 then [.cerr "Reuse \"sessions\" directory at path "]
              else []),
          root1) := by
  have hc : create_directory root1 cwd g.gSessionsDirectory = .ok (false, root1) := by
    unfold sessions_step at h
    split at h
    · cases h
    · next root2 hcd =>
      simp only [Except.ok.injEq, Prod.mk.injEq] at h
      obtain ⟨_, _, hr⟩ := h
      subst hr
      unfold create_directory at hcd
      split at hcd
      · next r2 hmk =>
        simp only [Except.ok.injEq, Prod.mk.injEq, true_and] at hcd
        subst hcd
        obtain ⟨h1, h2⟩ := mkdir_ok_then root cwd _ _ hmk
        unfold create_directory
        rw [h1]
        simp only
        rw [h2]
      · split at hcd <;> simp at hcd
    · next root2 hcd =>
      simp only [Except.ok.injEq, Prod.mk.injEq] at h
      obtain ⟨_, _, hr⟩ := h
      subst hr
      have hcd0 := hcd
      unfold create_directory at hcd
      split at hcd
      · simp at hcd
      · split at hcd
        · simp only [Except.ok.injEq, Prod.mk.injEq, true_and] at hcd
          subst hcd
          exact hcd0
        · cases hcd
  refine ⟨hc, ?_⟩
  unfold sessions_step
  rw [hc]

/-- C10 (witness): in a tree with `/srv/makefiles` only, the first run creates
`/srv/sessions` and the second run reuses it. -/
theorem sessions_step_idempotent_witness :
    create_directory
        (.dir true [("srv", .dir true [("makefiles", .dir true []),
          ("sessions", .dir true [])])])
        "/srv" "/srv/sessions"
      = .ok (false, .dir true [("srv", .dir true [("makefiles", .dir true []),
          ("sessions", .dir true [])])]) :=
  (sessions_step_idempotent
    (.dir true [("srv", .dir true [("makefiles", .dir true [])])]) "/srv"
    { gSessionsDirectory := "/srv/sessions" } true
    [.create_directory "/srv/sessions"]
    (.dir true [("srv", .dir true [("makefiles", .dir true []), ("sessions", .dir true [])])])
    rfl).1

end FaustService
